import Mathlib

/-!
Shallow embedding of `scripts/get-changed-tests.mjs`.

The script resolves CI context (branch name, remote URL, commit SHA) from a
pull-request event payload, environment variables, or live git commands,
short-circuits on the `canary` baseline branch, fetches and diffs against
`origin/canary`, and classifies the changed test files into dev/prod buckets.

All external interactions (event payload, environment, git commands, the
filesystem) are modelled by a `World` record describing their outcomes; a
JavaScript exception escaping the function is modelled as `Except.error`,
and the sequence of performed external commands is recorded as a list of
`Effect`s.  JavaScript string primitives (`startsWith`, `includes`,
`split('\n')`, `trim`, `replace(/\\/g,'/')` and the anchored test-file
regex) are embedded as executable functions over the character list of a
`String`.
-/

namespace GetChangedTests

/-- JS `p.isPrefixOf`-style `s.startsWith(p)`. -/
def strStartsWith (s p : String) : Bool := p.data.isPrefixOf s.data

/-- JS `s.endsWith(p)`. -/
def strEndsWith (s p : String) : Bool := p.data.reverse.isPrefixOf s.data.reverse

/-- Substring occurrence over character lists, used for JS `s.includes(pat)`. -/
def listContainsSub (p : List Char) : List Char → Bool
  | [] => p.isEmpty
  | c :: cs => p.isPrefixOf (c :: cs) || listContainsSub p cs

/-- JS `s.includes(pat)`. -/
def strIncludes (s pat : String) : Bool := listContainsSub pat.data s.data

/-- ASCII whitespace stripped by JS `String.prototype.trim` (the exotic
Unicode space separators never occur in branch names and are abstracted away). -/
def isJsWhitespace (c : Char) : Bool :=
  c = ' ' || c = '\t' || c = '\n' || c = '\r' || c = '\x0b' || c = '\x0c'

/-- JS `s.trim()`. -/
def strTrim (s : String) : String :=
  ⟨List.reverse (List.dropWhile isJsWhitespace
      (List.reverse (List.dropWhile isJsWhitespace s.data)))⟩

/-- JS `file.replace(/\\/g, '/')` on line 82 of the script: every backslash
becomes a forward slash. -/
def normalizeSlashes (s : String) : String :=
  ⟨s.data.map fun c => if c = '\\' then '/' else c⟩

/-- Splitting on `'\n'`, with JS semantics: `''.split('\n') = ['']` and a
trailing newline yields a trailing empty piece. -/
def splitLinesAux : List Char → List Char → List String
  | [], acc => [⟨acc.reverse⟩]
  | c :: cs, acc =>
    if c = '\n' then ⟨acc.reverse⟩ :: splitLinesAux cs []
    else splitLinesAux cs (c :: acc)

/-- JS `stdout.split('\n')`. -/
def splitLines (s : String) : List String := splitLinesAux s.data []

/-- The extension alternation of the regex on line 88. -/
def testFileExts : List String := ["js", "ts", "tsx"]

/-- The anchored regex `/^test\/.*?\.test\.(js|ts|tsx)$/` of line 88: the
string is `"test/" ++ mid ++ ".test." ++ ext` for some `mid` free of
newlines (`.` does not match `'\n'`) and some `ext` in `testFileExts`. -/
def matchesTestPattern (s : String) : Bool :=
  strStartsWith s "test/" &&
  !(s.data.contains '\n') &&
  testFileExts.any fun ext => strEndsWith ⟨s.data.drop 5⟩ (".test." ++ ext)

/-- The `pull_request.head` portion of the GitHub event payload; a field is
`none` when absent from the JSON. -/
structure EventHead where
  ref : Option String
  repoFullName : Option String
  sha : Option String
deriving Repr, DecidableEq

/-- External commands and filesystem probes the script can perform. -/
inductive Effect where
  | readEvent
  | gitAbbrevRef
  | gitRemoteGetUrl
  | gitRevParseHead
  | gitSetBranches
  | gitFetchCanary
  | gitRemoteV
  | gitDiff
  | fsAccess (path : String)
deriving Repr, DecidableEq

/-- Outcomes of every external interaction of one run.  `pullRequestHead` is
`none` when the event file is missing, unreadable, unparseable, or has no
`pull_request`/`head` object (the script's empty `catch` plus `|| {}`), so a
read/parse failure is by construction an empty payload.  Each git command's
outcome is `Except.error msg` when the spawned process rejects and
`Except.ok stdout` otherwise.  `fileExists` is the outcome of
`fs.access(path.join(process.cwd(), file))`, indexed by the
slash-normalized path relative to the working directory. -/
structure World where
  pullRequestHead : Option EventHead
  envRefName : Option String
  envRepository : Option String
  envSha : Option String
  gitAbbrevRef : Except String String
  gitRemoteGetUrl : Except String String
  gitRevParseHead : Except String String
  gitSetBranches : Except String Unit
  gitFetchCanary : Except String Unit
  gitRemoteV : Except String String
  gitDiff : Except String String
  fileExists : String → Bool

/-- `{ branchName, remoteUrl, commitSha }` as resolved on lines 26-39. -/
structure InvocationContext where
  branchName : String
  remoteUrl : String
  commitSha : String
deriving Repr, DecidableEq

/-- The value returned by the script; `commitSha = none` models the canary
return object, which carries no `commitSha` field. -/
structure ClassificationResult where
  devTests : List String
  prodTests : List String
  commitSha : Option String
deriving Repr, DecidableEq

/-- JS truthiness of an optional string: `undefined` and `""` are falsy. -/
def jsTruthy (v : Option String) : Option String :=
  match v with
  | some s => if s.data.isEmpty then none else some s
  | none => none

/-- One `a || b || (await execa(cmd)).stdout` chain: the payload field, then
the environment variable, then (lazily, recording the effect) the git
command, whose rejection propagates. -/
def resolveVal (payloadField envVar : Option String) (cmd : Except String String)
    (cmdEff : Effect) : Except String String × List Effect :=
  match jsTruthy payloadField with
  | some v => (.ok v, [])
  | none =>
    match jsTruthy envVar with
    | some v => (.ok v, [])
    | none => (cmd, [cmdEff])

/-- Line 26-29: `eventData?.head?.ref || GITHUB_REF_NAME || git rev-parse --abbrev-ref HEAD`. -/
def resolveBranch (w : World) : Except String String × List Effect :=
  resolveVal (w.pullRequestHead.bind EventHead.ref) w.envRefName w.gitAbbrevRef .gitAbbrevRef

/-- Line 31-34: `eventData?.head?.repo?.full_name || GITHUB_REPOSITORY || git remote get-url origin`. -/
def resolveRemote (w : World) : Except String String × List Effect :=
  resolveVal (w.pullRequestHead.bind EventHead.repoFullName) w.envRepository
    w.gitRemoteGetUrl .gitRemoteGetUrl

/-- Line 36-39: `eventData?.head?.sha || GITHUB_SHA || git rev-parse HEAD`. -/
def resolveSha (w : World) : Except String String × List Effect :=
  resolveVal (w.pullRequestHead.bind EventHead.sha) w.envSha w.gitRevParseHead .gitRevParseHead

/-- Lines 19-39: the event read followed by the three fallback chains, in
order; the first rejected git command aborts the run. -/
def resolveContext (w : World) : Except String InvocationContext × List Effect :=
  match resolveBranch w with
  | (.error e, e1) => (.error e, Effect.readEvent :: e1)
  | (.ok b, e1) =>
    match resolveRemote w with
    | (.error e, e2) => (.error e, Effect.readEvent :: (e1 ++ e2))
    | (.ok r, e2) =>
      match resolveSha w with
      | (.error e, e3) => (.error e, Effect.readEvent :: (e1 ++ e2 ++ e3))
      | (.ok s, e3) => (.ok ⟨b, r, s⟩, Effect.readEvent :: (e1 ++ e2 ++ e3))

/-- Line 41-42: `branchName.trim() === 'canary' && remoteUrl.includes('vercel/next.js')`. -/
def isCanaryFor (ctx : InvocationContext) : Bool :=
  strTrim ctx.branchName == "canary" && strIncludes ctx.remoteUrl "vercel/next.js"

/-- Lines 49-55: `try { set-branches; fetch } catch (err) { console.error(await
execa('git remote -v', ...)); ... }`.  The `await` inside the `catch` block is
itself uncaught, so a rejection of `git remote -v` escapes the function. -/
def fetchBaseline (w : World) : Except String Unit × List Effect :=
  match w.gitSetBranches with
  | .ok _ =>
    match w.gitFetchCanary with
    | .ok _ => (.ok (), [.gitSetBranches, .gitFetchCanary])
    | .error _ =>
      match w.gitRemoteV with
      | .ok _ => (.ok (), [.gitSetBranches, .gitFetchCanary, .gitRemoteV])
      | .error e => (.error e, [.gitSetBranches, .gitFetchCanary, .gitRemoteV])
  | .error _ =>
    match w.gitRemoteV with
    | .ok _ => (.ok (), [.gitSetBranches, .gitRemoteV])
    | .error e => (.error e, [.gitSetBranches, .gitRemoteV])

/-- Lines 57-64: the diff's stdout, with `.catch(() => ({ stdout: '' }))`
substituting empty output on failure. -/
def diffOutput (w : World) : String :=
  match w.gitDiff with
  | .ok s => s
  | .error _ => ""

/-- Lines 79-98: the classification loop.  Each raw diff line is
slash-normalized, probed on disk (always, recording the probe), and pushed
onto the dev/prod lists according to the nested prefix checks. -/
def classifyFiles (fe : String → Bool) : List String → List String × List String × List Effect
  | [] => ([], [], [])
  | raw :: rest =>
    let file := normalizeSlashes raw
    let prev := classifyFiles fe rest
    if fe file && matchesTestPattern file then
      if strStartsWith file "test/e2e/" then
        (file :: prev.1, file :: prev.2.1, Effect.fsAccess file :: prev.2.2)
      else if strStartsWith file "test/prod" then
        (prev.1, file :: prev.2.1, Effect.fsAccess file :: prev.2.2)
      else if strStartsWith file "test/development" then
        (file :: prev.1, prev.2.1, Effect.fsAccess file :: prev.2.2)
      else
        (prev.1, prev.2.1, Effect.fsAccess file :: prev.2.2)
    else
      (prev.1, prev.2.1, Effect.fsAccess file :: prev.2.2)

/-- The whole of `getChangedTests` (lines 11-114), returning the result (or
the escaped exception) together with the trace of performed effects. -/
def getChangedTestsFull (w : World) : Except String ClassificationResult × List Effect :=
  match resolveContext w with
  | (.error e, effs) => (.error e, effs)
  | (.ok ctx, effs) =>
    if isCanaryFor ctx then
      (.ok ⟨[], [], none⟩, effs)
    else
      match fetchBaseline w with
      | (.error e, feffs) => (.error e, effs ++ feffs)
      | (.ok _, feffs) =>
        let res := classifyFiles w.fileExists (splitLines (diffOutput w))
        (.ok ⟨res.1, res.2.1, some ctx.commitSha⟩,
          effs ++ feffs ++ (Effect.gitDiff :: res.2.2))

/-- The value `getChangedTests` resolves (or rejects) with. -/
def getChangedTests (w : World) : Except String ClassificationResult :=
  (getChangedTestsFull w).1

/-- The external commands and probes performed by the run. -/
def getChangedTestsEffects (w : World) : List Effect :=
  (getChangedTestsFull w).2

/-- Condition under which the loop pushes a (normalized) path onto
`devTests`: it exists, matches the pattern, and is under `test/e2e/`, or
else escapes `test/prod` but is under `test/development`. -/
def inDevBucket (fe : String → Bool) (f : String) : Bool :=
  fe f && matchesTestPattern f &&
    (strStartsWith f "test/e2e/" ||
      (!strStartsWith f "test/prod" && strStartsWith f "test/development"))

/-- Condition under which the loop pushes a (normalized) path onto
`prodTests`: it exists, matches the pattern, and is under `test/e2e/` or
`test/prod`. -/
def inProdBucket (fe : String → Bool) (f : String) : Bool :=
  fe f && matchesTestPattern f &&
    (strStartsWith f "test/e2e/" || strStartsWith f "test/prod")

/-- The spec's resolution policy, stated in its own words: "an ordered list
of lazy providers evaluated until one yields a non-empty value", falling
back to the live command output.  Used only to compare with the
source-derived `resolveVal`. -/
def specFallbackChain (providers : List (Option String)) (live : Except String String) :
    Except String String :=
  match providers with
  | [] => live
  | p :: rest =>
    match p with
    | some s => if s.data.isEmpty then specFallbackChain rest live else .ok s
    | none => specFallbackChain rest live

/-! ### Helper lemmas -/

lemma isPrefixOf_eq_true_iff (p l : List Char) :
    p.isPrefixOf l = true ↔ ∃ t, l = p ++ t := by
  induction p generalizing l with
  | nil => simp [List.isPrefixOf]
  | cons a as ih =>
    cases l with
    | nil => simp [List.isPrefixOf]
    | cons b bs =>
      simp only [List.isPrefixOf, Bool.and_eq_true, beq_iff_eq, ih, List.cons_append,
        List.cons.injEq]
      constructor
      · rintro ⟨rfl, t, rfl⟩
        exact ⟨t, rfl, rfl⟩
      · rintro ⟨t, rfl, rfl⟩
        exact ⟨rfl, t, rfl⟩

lemma strStartsWith_iff (s p : String) :
    strStartsWith s p = true ↔ ∃ t, s.data = p.data ++ t := by
  unfold strStartsWith
  exact isPrefixOf_eq_true_iff p.data s.data

/-- Two literal prefixes that disagree within the length of the shorter one
cannot both hold of the same string. -/
lemma startsWith_excl (s p q : String) (hle : q.data.length ≤ p.data.length)
    (hne : List.take q.data.length p.data ≠ q.data)
    (h : strStartsWith s p = true) : strStartsWith s q = false := by
  rcases (strStartsWith_iff s p).mp h with ⟨t, ht⟩
  by_contra hq
  rw [Bool.not_eq_false] at hq
  rcases (strStartsWith_iff s q).mp hq with ⟨u, hu⟩
  apply hne
  have h1 : List.take q.data.length s.data = q.data := by
    rw [hu, List.take_append_of_le_length (Nat.le_refl _), List.take_length]
  rw [ht, List.take_append_of_le_length hle] at h1
  exact h1

lemma prod_not_e2e (s : String) (h : strStartsWith s "test/prod" = true) :
    strStartsWith s "test/e2e/" = false :=
  startsWith_excl s "test/prod" "test/e2e/" (by decide) (by decide) h

lemma dev_not_e2e (s : String) (h : strStartsWith s "test/development" = true) :
    strStartsWith s "test/e2e/" = false :=
  startsWith_excl s "test/development" "test/e2e/" (by decide) (by decide) h

lemma dev_not_prod (s : String) (h : strStartsWith s "test/development" = true) :
    strStartsWith s "test/prod" = false :=
  startsWith_excl s "test/development" "test/prod" (by decide) (by decide) h

lemma normalizeSlashes_idem (s : String) :
    normalizeSlashes (normalizeSlashes s) = normalizeSlashes s := by
  unfold normalizeSlashes
  refine congrArg String.mk ?_
  rw [List.map_map]
  refine List.map_congr_left fun c _ => ?_
  simp only [Function.comp_apply]
  by_cases h : c = '\\' <;> simp [h]

/-- The classification loop in closed form: the dev and prod lists are the
in-order filters of the slash-normalized diff lines by the bucket
conditions, and the probe trace visits each normalized line once. -/
lemma classifyFiles_eq (fe : String → Bool) (files : List String) :
    classifyFiles fe files =
      ((files.map normalizeSlashes).filter (inDevBucket fe),
       (files.map normalizeSlashes).filter (inProdBucket fe),
       (files.map normalizeSlashes).map Effect.fsAccess) := by
  induction files with
  | nil => rfl
  | cons raw rest ih =>
    cases h1 : fe (normalizeSlashes raw) && matchesTestPattern (normalizeSlashes raw) with
    | false =>
      simp [classifyFiles, ih, h1, inDevBucket, inProdBucket, List.filter_cons]
    | true =>
      cases h2 : strStartsWith (normalizeSlashes raw) "test/e2e/" with
      | true =>
        simp [classifyFiles, ih, h1, h2, inDevBucket, inProdBucket, List.filter_cons]
      | false =>
        cases h3 : strStartsWith (normalizeSlashes raw) "test/prod" with
        | true =>
          simp [classifyFiles, ih, h1, h2, h3, inDevBucket, inProdBucket, List.filter_cons]
        | false =>
          cases h4 : strStartsWith (normalizeSlashes raw) "test/development" with
          | true =>
            simp [classifyFiles, ih, h1, h2, h3, h4, inDevBucket, inProdBucket,
              List.filter_cons]
          | false =>
            simp [classifyFiles, ih, h1, h2, h3, h4, inDevBucket, inProdBucket,
              List.filter_cons]

lemma resolveVal_fst (p e : Option String) (c : Except String String) (eff : Effect) :
    (resolveVal p e c eff).1 = specFallbackChain [p, e] c := by
  unfold resolveVal specFallbackChain jsTruthy
  cases p with
  | none =>
    cases e with
    | none => rfl
    | some s => by_cases h : s.data.isEmpty <;> simp [specFallbackChain, h]
  | some s =>
    by_cases h : s.data.isEmpty
    · cases e with
      | none => simp [specFallbackChain, h]
      | some u => by_cases h2 : u.data.isEmpty <;> simp [specFallbackChain, h, h2]
    · simp [h]

lemma resolveVal_snd (p e : Option String) (c : Except String String) (eff : Effect) :
    (resolveVal p e c eff).2 = [] ∨ (resolveVal p e c eff).2 = [eff] := by
  unfold resolveVal
  cases jsTruthy p with
  | some v => exact Or.inl rfl
  | none =>
    cases jsTruthy e with
    | some v => exact Or.inl rfl
    | none => exact Or.inr rfl

lemma resolveContext_fst_ok (w : World) (ctx : InvocationContext)
    (h : (resolveContext w).1 = .ok ctx) :
    (resolveBranch w).1 = .ok ctx.branchName ∧ (resolveRemote w).1 = .ok ctx.remoteUrl ∧
      (resolveSha w).1 = .ok ctx.commitSha := by
  unfold resolveContext at h
  rcases hb : resolveBranch w with ⟨br, e1⟩
  rw [hb] at h
  cases br with
  | error e => simp at h
  | ok b =>
    rcases hr : resolveRemote w with ⟨rr, e2⟩
    rw [hr] at h
    cases rr with
    | error e => simp at h
    | ok r =>
      rcases hs : resolveSha w with ⟨sr, e3⟩
      rw [hs] at h
      cases sr with
      | error e => simp at h
      | ok s2 =>
        have hctx : InvocationContext.mk b r s2 = ctx := by simpa using h
        subst hctx
        exact ⟨rfl, rfl, rfl⟩

lemma resolveContext_snd_mem (w : World) (e : Effect) (he : e ∈ (resolveContext w).2) :
    e = .readEvent ∨ e = .gitAbbrevRef ∨ e = .gitRemoteGetUrl ∨ e = .gitRevParseHead := by
  have hb2 : (resolveBranch w).2 = [] ∨ (resolveBranch w).2 = [Effect.gitAbbrevRef] :=
    resolveVal_snd _ _ _ _
  have hr2 : (resolveRemote w).2 = [] ∨ (resolveRemote w).2 = [Effect.gitRemoteGetUrl] :=
    resolveVal_snd _ _ _ _
  have hs2 : (resolveSha w).2 = [] ∨ (resolveSha w).2 = [Effect.gitRevParseHead] :=
    resolveVal_snd _ _ _ _
  unfold resolveContext at he
  rcases hb : resolveBranch w with ⟨br, e1⟩
  rw [hb] at he hb2
  rcases hr : resolveRemote w with ⟨rr, e2⟩
  rw [hr] at he hr2
  rcases hs : resolveSha w with ⟨sr, e3⟩
  rw [hs] at he hs2
  simp only at hb2 hr2 hs2
  cases br with
  | error err =>
    simp only at he
    rcases List.mem_cons.mp he with h | h
    · exact Or.inl h
    · rcases hb2 with rfl | rfl
      · simp at h
      · simp at h
        exact Or.inr (Or.inl h)
  | ok b =>
    cases rr with
    | error err =>
      simp only at he
      rcases List.mem_cons.mp he with h | h
      · exact Or.inl h
      · rw [List.mem_append] at h
        rcases h with h | h
        · rcases hb2 with rfl | rfl
          · simp at h
          · simp at h
            exact Or.inr (Or.inl h)
        · rcases hr2 with rfl | rfl
          · simp at h
          · simp at h
            exact Or.inr (Or.inr (Or.inl h))
    | ok r =>
      cases sr with
      | error err =>
        simp only at he
        rcases List.mem_cons.mp he with h | h
        · exact Or.inl h
        · simp only [List.mem_append] at h
          rcases h with (h | h) | h
          · rcases hb2 with rfl | rfl
            · simp at h
            · simp at h
              exact Or.inr (Or.inl h)
          · rcases hr2 with rfl | rfl
            · simp at h
            · simp at h
              exact Or.inr (Or.inr (Or.inl h))
          · rcases hs2 with rfl | rfl
            · simp at h
            · simp at h
              exact Or.inr (Or.inr (Or.inr h))
      | ok s2 =>
        simp only at he
        rcases List.mem_cons.mp he with h | h
        · exact Or.inl h
        · simp only [List.mem_append] at h
          rcases h with (h | h) | h
          · rcases hb2 with rfl | rfl
            · simp at h
            · simp at h
              exact Or.inr (Or.inl h)
          · rcases hr2 with rfl | rfl
            · simp at h
            · simp at h
              exact Or.inr (Or.inr (Or.inl h))
          · rcases hs2 with rfl | rfl
            · simp at h
            · simp at h
              exact Or.inr (Or.inr (Or.inr h))

lemma getChangedTestsFull_canary (w : World) (ctx : InvocationContext)
    (h : (resolveContext w).1 = .ok ctx) (hc : isCanaryFor ctx = true) :
    getChangedTestsFull w = (.ok ⟨[], [], none⟩, (resolveContext w).2) := by
  unfold getChangedTestsFull
  rcases hrc : resolveContext w with ⟨res, effs⟩
  rw [hrc] at h
  cases res with
  | error e => simp at h
  | ok ctx' =>
    have : ctx' = ctx := by simpa using h
    subst this
    simp [hc]

lemma getChangedTests_canary (w : World) (ctx : InvocationContext)
    (h : (resolveContext w).1 = .ok ctx) (hc : isCanaryFor ctx = true) :
    getChangedTests w = .ok ⟨[], [], none⟩ := by
  unfold getChangedTests
  rw [getChangedTestsFull_canary w ctx h hc]

lemma getChangedTests_main (w : World) (ctx : InvocationContext)
    (h : (resolveContext w).1 = .ok ctx) (hc : isCanaryFor ctx = false)
    (hf : (fetchBaseline w).1 = .ok ()) :
    getChangedTests w =
      .ok ⟨((splitLines (diffOutput w)).map normalizeSlashes).filter
             (inDevBucket w.fileExists),
           ((splitLines (diffOutput w)).map normalizeSlashes).filter
             (inProdBucket w.fileExists),
           some ctx.commitSha⟩ := by
  unfold getChangedTests getChangedTestsFull
  rcases hrc : resolveContext w with ⟨res, effs⟩
  rw [hrc] at h
  cases res with
  | error e => simp at h
  | ok ctx' =>
    have : ctx' = ctx := by simpa using h
    subst this
    simp only [hc, if_false, Bool.false_eq_true]
    rcases hfb : fetchBaseline w with ⟨fres, feffs⟩
    rw [hfb] at hf
    cases fres with
    | error e => simp at hf
    | ok u =>
      simp [classifyFiles_eq]

lemma getChangedTests_ok_cases (w : World) (r : ClassificationResult)
    (h : getChangedTests w = .ok r) :
    ∃ ctx, (resolveContext w).1 = .ok ctx ∧
      ((isCanaryFor ctx = true ∧ r = ⟨[], [], none⟩) ∨
       (isCanaryFor ctx = false ∧ (fetchBaseline w).1 = .ok () ∧
        r = ⟨((splitLines (diffOutput w)).map normalizeSlashes).filter
               (inDevBucket w.fileExists),
             ((splitLines (diffOutput w)).map normalizeSlashes).filter
               (inProdBucket w.fileExists),
             some ctx.commitSha⟩)) := by
  unfold getChangedTests getChangedTestsFull at h
  rcases hrc : resolveContext w with ⟨res, effs⟩
  rw [hrc] at h
  cases res with
  | error e => simp at h
  | ok ctx =>
    refine ⟨ctx, rfl, ?_⟩
    cases hc : isCanaryFor ctx with
    | true =>
      refine Or.inl ⟨rfl, ?_⟩
      simp only [hc, if_true] at h
      simpa using h.symm
    | false =>
      simp only [hc, if_false, Bool.false_eq_true] at h
      rcases hfb : fetchBaseline w with ⟨fres, feffs⟩
      rw [hfb] at h
      cases fres with
      | error e => simp at h
      | ok u =>
        refine Or.inr ⟨rfl, rfl, ?_⟩
        simp only [classifyFiles_eq] at h
        simpa using h.symm

/-! ### Concrete worlds used as witnesses and counterexamples -/

/-- A pull-request-free canary run: context comes from the environment, and
every later interaction is made to fail to show it is never consulted. -/
def wCanary : World :=
  { pullRequestHead := none
    envRefName := some "canary"
    envRepository := some "vercel/next.js"
    envSha := some "abc123"
    gitAbbrevRef := .error "unused"
    gitRemoteGetUrl := .error "unused"
    gitRevParseHead := .error "unused"
    gitSetBranches := .error "unused"
    gitFetchCanary := .error "unused"
    gitRemoteV := .error "unused"
    gitDiff := .error "unused"
    fileExists := fun _ => false }

/-- A feature-branch run whose diff reports one path of each bucket kind. -/
def wMain : World :=
  { pullRequestHead := none
    envRefName := some "feature-x"
    envRepository := some "someone/next.js"
    envSha := some "abc123"
    gitAbbrevRef := .ok ""
    gitRemoteGetUrl := .ok ""
    gitRevParseHead := .ok ""
    gitSetBranches := .ok ()
    gitFetchCanary := .ok ()
    gitRemoteV := .ok "origin"
    gitDiff := .ok "test/e2e/a.test.ts\ntest/prod/b.test.js\ntest/development/c.test.tsx\ntest/unit/d.test.ts\ndocs/readme.md"
    fileExists := fun _ => true }

/-- A run in which the same diff line appears twice. -/
def wDup : World :=
  { pullRequestHead := none
    envRefName := some "feature-x"
    envRepository := some "someone/next.js"
    envSha := some "sha1"
    gitAbbrevRef := .ok ""
    gitRemoteGetUrl := .ok ""
    gitRevParseHead := .ok ""
    gitSetBranches := .ok ()
    gitFetchCanary := .ok ()
    gitRemoteV := .ok "origin"
    gitDiff := .ok "test/e2e/a.test.ts\ntest/e2e/a.test.ts"
    fileExists := fun _ => true }

/-- A run whose only changed test file no longer exists on disk. -/
def wDeleted : World :=
  { pullRequestHead := none
    envRefName := some "feature-x"
    envRepository := some "someone/next.js"
    envSha := some "sha2"
    gitAbbrevRef := .ok ""
    gitRemoteGetUrl := .ok ""
    gitRevParseHead := .ok ""
    gitSetBranches := .ok ()
    gitFetchCanary := .ok ()
    gitRemoteV := .ok "origin"
    gitDiff := .ok "test/e2e/gone.test.ts"
    fileExists := fun _ => false }

/-- A run in which the branch name cannot be resolved: no event payload, no
environment variable, and a rejecting `git rev-parse --abbrev-ref HEAD`. -/
def wBranchFail : World :=
  { pullRequestHead := none
    envRefName := none
    envRepository := some "someone/next.js"
    envSha := some "abc123"
    gitAbbrevRef := .error "rev-parse failed"
    gitRemoteGetUrl := .ok ""
    gitRevParseHead := .ok ""
    gitSetBranches := .ok ()
    gitFetchCanary := .ok ()
    gitRemoteV := .ok "origin"
    gitDiff := .ok ""
    fileExists := fun _ => false }

/-- A run in which the baseline fetch fails and the diagnostic
`git remote -v` executed inside the `catch` block also fails. -/
def wRemoteVFail : World :=
  { pullRequestHead := none
    envRefName := some "feature-1"
    envRepository := some "someone/next.js"
    envSha := some "abc123"
    gitAbbrevRef := .ok ""
    gitRemoteGetUrl := .ok ""
    gitRevParseHead := .ok ""
    gitSetBranches := .error "set-branches failed"
    gitFetchCanary := .error "fetch failed"
    gitRemoteV := .error "remote -v failed"
    gitDiff := .ok ""
    fileExists := fun _ => false }

/-- A run in which the baseline fetch fails but `git remote -v` succeeds,
and the diff also fails. -/
def wDegraded : World :=
  { pullRequestHead := none
    envRefName := some "feature-1"
    envRepository := some "someone/next.js"
    envSha := some "abc123"
    gitAbbrevRef := .ok ""
    gitRemoteGetUrl := .ok ""
    gitRevParseHead := .ok ""
    gitSetBranches := .error "set-branches failed"
    gitFetchCanary := .error "fetch failed"
    gitRemoteV := .ok "origin"
    gitDiff := .error "diff failed"
    fileExists := fun _ => true }

/-- A run exercising the fallback chain: the payload branch ref is empty
(falsy), the environment provides the branch, the payload provides the
remote, and the commit SHA falls through to the live git command. -/
def wChain : World :=
  { pullRequestHead := some ⟨some "", some "fork/next.js", none⟩
    envRefName := some "feature-y"
    envRepository := some "ignored/next.js"
    envSha := none
    gitAbbrevRef := .ok "unused-branch"
    gitRemoteGetUrl := .ok "unused-remote"
    gitRevParseHead := .ok "deadbeef"
    gitSetBranches := .ok ()
    gitFetchCanary := .ok ()
    gitRemoteV := .ok "origin"
    gitDiff := .ok ""
    fileExists := fun _ => false }

/-! ### Claims -/

/-- C1: if the resolved branch name, after trimming, equals `"canary"` and
the resolved remote URL contains `"vercel/next.js"`, then `getChangedTests`
returns exactly `{ devTests: [], prodTests: [] }` with no `commitSha` field
(`commitSha = none`), and the run's effect trace contains no baseline-fetch
command, no diff, and no filesystem check.  (The theorem quantifies over
every world with that resolved context, so the result is also independent
of the fetch, diff, and filesystem outcomes.) -/
theorem canary_short_circuit (w : World) (ctx : InvocationContext)
    (h : (resolveContext w).1 = .ok ctx)
    (hb : strTrim ctx.branchName = "canary")
    (hr : strIncludes ctx.remoteUrl "vercel/next.js" = true) :
    getChangedTests w = .ok ⟨[], [], none⟩ ∧
    ∀ e ∈ getChangedTestsEffects w,
      e ≠ Effect.gitSetBranches ∧ e ≠ Effect.gitFetchCanary ∧ e ≠ Effect.gitDiff ∧
        ∀ p, e ≠ Effect.fsAccess p := by
  have hc : isCanaryFor ctx = true := by
    unfold isCanaryFor
    rw [hb, hr]
    decide
  refine ⟨getChangedTests_canary w ctx h hc, ?_⟩
  intro e he
  unfold getChangedTestsEffects at he
  rw [getChangedTestsFull_canary w ctx h hc] at he
  rcases resolveContext_snd_mem w e he with h1 | h1 | h1 | h1 <;> subst h1 <;>
    exact ⟨by simp, by simp, by simp, fun p => by simp⟩

/-- C1 witness: a concrete canary world (in which every fetch/diff/fs
interaction is rigged to fail, showing none is consulted). -/
theorem canary_short_circuit_witness :
    (resolveContext wCanary).1 = .ok ⟨"canary", "vercel/next.js", "abc123"⟩ ∧
    strTrim "canary" = "canary" ∧
    strIncludes "vercel/next.js" "vercel/next.js" = true ∧
    getChangedTests wCanary = .ok ⟨[], [], none⟩ :=
  ⟨rfl, rfl, by decide,
    (canary_short_circuit wCanary ⟨"canary", "vercel/next.js", "abc123"⟩ rfl rfl
      (by decide)).1⟩

/-- C2: for a changed path that exists on disk and matches the test-file
pattern, bucketing follows the first matching rule in order: a path under
`test/e2e/` is appended to both lists; otherwise a `test/prod` prefix
appends to `prodTests` only; otherwise a `test/development` prefix appends
to `devTests` only; otherwise (e.g. `test/unit/...`) it is appended to
neither. -/
theorem bucketing_first_matching_rule (fe : String → Bool) (raw : String)
    (rest : List String)
    (hfe : fe (normalizeSlashes raw) = true)
    (hm : matchesTestPattern (normalizeSlashes raw) = true) :
    (strStartsWith (normalizeSlashes raw) "test/e2e/" = true →
      (classifyFiles fe (raw :: rest)).1 = normalizeSlashes raw :: (classifyFiles fe rest).1 ∧
      (classifyFiles fe (raw :: rest)).2.1 =
        normalizeSlashes raw :: (classifyFiles fe rest).2.1) ∧
    (strStartsWith (normalizeSlashes raw) "test/e2e/" = false →
     strStartsWith (normalizeSlashes raw) "test/prod" = true →
      (classifyFiles fe (raw :: rest)).1 = (classifyFiles fe rest).1 ∧
      (classifyFiles fe (raw :: rest)).2.1 =
        normalizeSlashes raw :: (classifyFiles fe rest).2.1) ∧
    (strStartsWith (normalizeSlashes raw) "test/e2e/" = false →
     strStartsWith (normalizeSlashes raw) "test/prod" = false →
     strStartsWith (normalizeSlashes raw) "test/development" = true →
      (classifyFiles fe (raw :: rest)).1 = normalizeSlashes raw :: (classifyFiles fe rest).1 ∧
      (classifyFiles fe (raw :: rest)).2.1 = (classifyFiles fe rest).2.1) ∧
    (strStartsWith (normalizeSlashes raw) "test/e2e/" = false →
     strStartsWith (normalizeSlashes raw) "test/prod" = false →
     strStartsWith (normalizeSlashes raw) "test/development" = false →
      (classifyFiles fe (raw :: rest)).1 = (classifyFiles fe rest).1 ∧
      (classifyFiles fe (raw :: rest)).2.1 = (classifyFiles fe rest).2.1) := by
  refine ⟨fun h1 => ?_, fun h1 h2 => ?_, fun h1 h2 h3 => ?_, fun h1 h2 h3 => ?_⟩
  · constructor <;> simp [classifyFiles, hfe, hm, h1]
  · constructor <;> simp [classifyFiles, hfe, hm, h1, h2]
  · constructor <;> simp [classifyFiles, hfe, hm, h1, h2, h3]
  · constructor <;> simp [classifyFiles, hfe, hm, h1, h2, h3]

/-- C2 witness: the three spec examples, each classified through the rule
chain. -/
theorem bucketing_first_matching_rule_witness :
    (matchesTestPattern "test/e2e/foo.test.ts" = true ∧
      (classifyFiles (fun _ => true) ["test/e2e/foo.test.ts"]).1 = ["test/e2e/foo.test.ts"] ∧
      (classifyFiles (fun _ => true) ["test/e2e/foo.test.ts"]).2.1 =
        ["test/e2e/foo.test.ts"]) ∧
    (matchesTestPattern "test/prod/bar.test.js" = true ∧
      (classifyFiles (fun _ => true) ["test/prod/bar.test.js"]).1 = [] ∧
      (classifyFiles (fun _ => true) ["test/prod/bar.test.js"]).2.1 =
        ["test/prod/bar.test.js"]) ∧
    (matchesTestPattern "test/development/baz.test.tsx" = true ∧
      (classifyFiles (fun _ => true) ["test/development/baz.test.tsx"]).1 =
        ["test/development/baz.test.tsx"] ∧
      (classifyFiles (fun _ => true) ["test/development/baz.test.tsx"]).2.1 = []) ∧
    (matchesTestPattern "test/unit/qux.test.ts" = true ∧
      (classifyFiles (fun _ => true) ["test/unit/qux.test.ts"]).1 = [] ∧
      (classifyFiles (fun _ => true) ["test/unit/qux.test.ts"]).2.1 = []) := by
  refine ⟨⟨by decide, ?_, ?_⟩, ⟨by decide, ?_, ?_⟩, ⟨by decide, ?_, ?_⟩, ⟨by decide, ?_, ?_⟩⟩
  · exact ((bucketing_first_matching_rule (fun _ => true) "test/e2e/foo.test.ts" [] rfl
      (by decide)).1 (by decide)).1.trans (by decide)
  · exact ((bucketing_first_matching_rule (fun _ => true) "test/e2e/foo.test.ts" [] rfl
      (by decide)).1 (by decide)).2.trans (by decide)
  · exact ((bucketing_first_matching_rule (fun _ => true) "test/prod/bar.test.js" [] rfl
      (by decide)).2.1 (by decide) (by decide)).1.trans (by decide)
  · exact ((bucketing_first_matching_rule (fun _ => true) "test/prod/bar.test.js" [] rfl
      (by decide)).2.1 (by decide) (by decide)).2.trans (by decide)
  · exact ((bucketing_first_matching_rule (fun _ => true) "test/development/baz.test.tsx" []
      rfl (by decide)).2.2.1 (by decide) (by decide) (by decide)).1.trans (by decide)
  · exact ((bucketing_first_matching_rule (fun _ => true) "test/development/baz.test.tsx" []
      rfl (by decide)).2.2.1 (by decide) (by decide) (by decide)).2.trans (by decide)
  · exact ((bucketing_first_matching_rule (fun _ => true) "test/unit/qux.test.ts" [] rfl
      (by decide)).2.2.2 (by decide) (by decide) (by decide)).1.trans (by decide)
  · exact ((bucketing_first_matching_rule (fun _ => true) "test/unit/qux.test.ts" [] rfl
      (by decide)).2.2.2 (by decide) (by decide) (by decide)).2.trans (by decide)

/-- C6: classification is invariant under slash normalization — classifying
already-normalized diff lines gives exactly the same lists (and probe
trace) as classifying the raw lines, so `test\e2e\foo.test.ts` is treated
identically to `test/e2e/foo.test.ts`. -/
theorem classify_normalization_invariant (fe : String → Bool) (files : List String) :
    classifyFiles fe (files.map normalizeSlashes) = classifyFiles fe files := by
  have hmm : (files.map normalizeSlashes).map normalizeSlashes = files.map normalizeSlashes := by
    rw [List.map_map]
    exact List.map_congr_left fun a _ => normalizeSlashes_idem a
  rw [classifyFiles_eq fe (files.map normalizeSlashes), classifyFiles_eq fe files, hmm]

/-- C3 counterexample: the claim says `getChangedTests` never throws even
when the git commands used during context resolution fail, but when no
payload or environment value supplies the branch name and
`git rev-parse --abbrev-ref HEAD` rejects, the rejection escapes the
function (the `await` on line 29 is not inside any `try`). -/
theorem context_failure_propagates :
    getChangedTests wBranchFail = .error "rev-parse failed" := rfl

/-- C3 amended: `getChangedTests` returns a `ClassificationResult` (never
throws), with fetch and diff failures degraded to defaults, provided
context resolution (branch name, remote URL, commit SHA) raises no git
failure and the fetch phase completes — i.e. either the canary
short-circuit applies or the `try`/`catch` around the baseline fetch
finishes, which on a fetch failure additionally requires the diagnostic
`git remote -v` in the `catch` handler not to reject. -/
theorem no_throw_after_context_resolution (w : World) (ctx : InvocationContext)
    (h : (resolveContext w).1 = .ok ctx)
    (hf : isCanaryFor ctx = true ∨ (fetchBaseline w).1 = .ok ()) :
    ∃ r, getChangedTests w = .ok r := by
  cases hc : isCanaryFor ctx with
  | true => exact ⟨_, getChangedTests_canary w ctx h hc⟩
  | false =>
    rcases hf with hcan | hfb
    · rw [hc] at hcan
      exact absurd hcan (by simp)
    · exact ⟨_, getChangedTests_main w ctx h hc hfb⟩

/-- C3 amended witness: a complete feature-branch run returns a result. -/
theorem no_throw_after_context_resolution_witness :
    (resolveContext wMain).1 = .ok ⟨"feature-x", "someone/next.js", "abc123"⟩ ∧
    (fetchBaseline wMain).1 = .ok () ∧
    ∃ r, getChangedTests wMain = .ok r :=
  ⟨rfl, rfl,
    no_throw_after_context_resolution wMain ⟨"feature-x", "someone/next.js", "abc123"⟩ rfl
      (Or.inr rfl)⟩

/-- C4: a path that does not match the anchored test-file pattern appears in
neither `devTests` nor `prodTests` of any returned result. -/
theorem nonmatching_path_in_neither_list (w : World) (r : ClassificationResult)
    (h : getChangedTests w = .ok r) (p : String)
    (hp : matchesTestPattern p = false) :
    p ∉ r.devTests ∧ p ∉ r.prodTests := by
  rcases getChangedTests_ok_cases w r h with ⟨ctx, _, ⟨_, rfl⟩ | ⟨_, _, rfl⟩⟩
  · simp
  · refine ⟨fun hmem => ?_, fun hmem => ?_⟩
    · have hb := List.of_mem_filter hmem
      simp [inDevBucket, hp] at hb
    · have hb := List.of_mem_filter hmem
      simp [inProdBucket, hp] at hb

/-- C4 witness: the changed path `docs/readme.md` of a concrete run matches
nothing and lands in neither list. -/
theorem nonmatching_path_in_neither_list_witness :
    getChangedTests wMain =
      .ok ⟨["test/e2e/a.test.ts", "test/development/c.test.tsx"],
           ["test/e2e/a.test.ts", "test/prod/b.test.js"], some "abc123"⟩ ∧
    matchesTestPattern "docs/readme.md" = false ∧
    ("docs/readme.md" ∉ (["test/e2e/a.test.ts", "test/development/c.test.tsx"] : List String) ∧
     "docs/readme.md" ∉ (["test/e2e/a.test.ts", "test/prod/b.test.js"] : List String)) :=
  ⟨rfl, by decide,
    nonmatching_path_in_neither_list wMain
      ⟨["test/e2e/a.test.ts", "test/development/c.test.tsx"],
       ["test/e2e/a.test.ts", "test/prod/b.test.js"], some "abc123"⟩
      rfl "docs/readme.md" (by decide)⟩

/-- C5: a path whose on-disk existence check fails is excluded from both
lists of any returned result. -/
theorem nonexistent_path_excluded (w : World) (r : ClassificationResult)
    (h : getChangedTests w = .ok r) (p : String)
    (hp : w.fileExists p = false) :
    p ∉ r.devTests ∧ p ∉ r.prodTests := by
  rcases getChangedTests_ok_cases w r h with ⟨ctx, _, ⟨_, rfl⟩ | ⟨_, _, rfl⟩⟩
  · simp
  · refine ⟨fun hmem => ?_, fun hmem => ?_⟩
    · have hb := List.of_mem_filter hmem
      simp [inDevBucket, hp] at hb
    · have hb := List.of_mem_filter hmem
      simp [inProdBucket, hp] at hb

/-- C5 witness: a changed, pattern-matching path that was deleted on disk
appears in neither list. -/
theorem nonexistent_path_excluded_witness :
    getChangedTests wDeleted = .ok ⟨[], [], some "sha2"⟩ ∧
    matchesTestPattern "test/e2e/gone.test.ts" = true ∧
    wDeleted.fileExists "test/e2e/gone.test.ts" = false ∧
    ("test/e2e/gone.test.ts" ∉ ([] : List String) ∧
     "test/e2e/gone.test.ts" ∉ ([] : List String)) :=
  ⟨rfl, by decide, rfl,
    nonexistent_path_excluded wDeleted ⟨[], [], some "sha2"⟩ rfl "test/e2e/gone.test.ts" rfl⟩

/-- C7 counterexample: the claim says a baseline-fetch failure is always
caught, but when `git remote -v` — awaited inside the `catch` handler on
line 53 — also rejects, that rejection escapes `getChangedTests`. -/
theorem fetch_handler_failure_propagates :
    getChangedTests wRemoteVFail = .error "remote -v failed" := rfl

/-- C7 amended: if the baseline-fetch commands or the diff command fail,
the failure is caught, the diff output is substituted with empty output
where applicable (forcing both result lists empty), and `getChangedTests`
still returns a well-formed result — provided the diagnostic
`git remote -v` run by the fetch failure handler does not itself reject. -/
theorem fetch_or_diff_failure_degrades (w : World) (ctx : InvocationContext)
    (h : (resolveContext w).1 = .ok ctx)
    (_hfail : (∃ e, w.gitSetBranches = .error e) ∨ (∃ e, w.gitFetchCanary = .error e) ∨
      (∃ e, w.gitDiff = .error e))
    (hrv : ∃ s, w.gitRemoteV = .ok s) :
    ∃ r, getChangedTests w = .ok r ∧
      ((∃ e, w.gitDiff = .error e) → r.devTests = [] ∧ r.prodTests = []) := by
  have hfb : (fetchBaseline w).1 = .ok () := by
    rcases hrv with ⟨s, hs⟩
    cases hsb : w.gitSetBranches with
    | error e => simp [fetchBaseline, hsb, hs]
    | ok u =>
      cases hfc : w.gitFetchCanary with
      | ok v => simp [fetchBaseline, hsb, hfc]
      | error e => simp [fetchBaseline, hsb, hfc, hs]
  cases hc : isCanaryFor ctx with
  | true => exact ⟨⟨[], [], none⟩, getChangedTests_canary w ctx h hc, fun _ => ⟨rfl, rfl⟩⟩
  | false =>
    refine ⟨_, getChangedTests_main w ctx h hc hfb, ?_⟩
    rintro ⟨e, he⟩
    have hlist : (splitLines (diffOutput w)).map normalizeSlashes = [""] := by
      rw [show diffOutput w = "" from by simp [diffOutput, he]]
      rfl
    have hdev : inDevBucket w.fileExists "" = false := by
      simp [inDevBucket, show matchesTestPattern "" = false from rfl]
    have hprod : inProdBucket w.fileExists "" = false := by
      simp [inProdBucket, show matchesTestPattern "" = false from rfl]
    constructor
    · show List.filter (inDevBucket w.fileExists)
        ((splitLines (diffOutput w)).map normalizeSlashes) = []
      rw [hlist, List.filter_cons, hdev]
      rfl
    · show List.filter (inProdBucket w.fileExists)
        ((splitLines (diffOutput w)).map normalizeSlashes) = []
      rw [hlist, List.filter_cons, hprod]
      rfl

/-- C7 amended witness: a run whose set-branches, fetch and diff all fail
but whose `git remote -v` succeeds returns a well-formed empty result. -/
theorem fetch_or_diff_failure_degrades_witness :
    wDegraded.gitSetBranches = .error "set-branches failed" ∧
    wDegraded.gitDiff = .error "diff failed" ∧
    wDegraded.gitRemoteV = .ok "origin" ∧
    ∃ r, getChangedTests wDegraded = .ok r ∧
      ((∃ e, wDegraded.gitDiff = .error e) → r.devTests = [] ∧ r.prodTests = []) :=
  ⟨rfl, rfl, rfl,
    fetch_or_diff_failure_degrades wDegraded ⟨"feature-1", "someone/next.js", "abc123"⟩ rfl
      (Or.inl ⟨"set-branches failed", rfl⟩) ⟨"origin", rfl⟩⟩

/-- C8: each of the three context values is resolved exactly as the spec's
fallback chain prescribes — the first non-empty value among the payload
field and the environment variable, else the live git command's output
(whose failure propagates).  An unreadable or unparseable event file is,
by the construction of `World.pullRequestHead`, an empty payload and not a
fatal error. -/
theorem fallback_chain_first_nonempty (w : World) (ctx : InvocationContext)
    (h : (resolveContext w).1 = .ok ctx) :
    specFallbackChain [w.pullRequestHead.bind EventHead.ref, w.envRefName]
        w.gitAbbrevRef = .ok ctx.branchName ∧
    specFallbackChain [w.pullRequestHead.bind EventHead.repoFullName, w.envRepository]
        w.gitRemoteGetUrl = .ok ctx.remoteUrl ∧
    specFallbackChain [w.pullRequestHead.bind EventHead.sha, w.envSha]
        w.gitRevParseHead = .ok ctx.commitSha := by
  obtain ⟨h1, h2, h3⟩ := resolveContext_fst_ok w ctx h
  refine ⟨?_, ?_, ?_⟩
  · rw [← resolveVal_fst _ _ _ Effect.gitAbbrevRef]
    exact h1
  · rw [← resolveVal_fst _ _ _ Effect.gitRemoteGetUrl]
    exact h2
  · rw [← resolveVal_fst _ _ _ Effect.gitRevParseHead]
    exact h3

/-- C8 witness: with an empty (falsy) payload branch ref the environment
wins, the payload remote wins over the environment, and the commit SHA
falls through to the live git command. -/
theorem fallback_chain_first_nonempty_witness :
    (resolveContext wChain).1 = .ok ⟨"feature-y", "fork/next.js", "deadbeef"⟩ ∧
    specFallbackChain [wChain.pullRequestHead.bind EventHead.ref, wChain.envRefName]
        wChain.gitAbbrevRef = .ok "feature-y" ∧
    specFallbackChain [wChain.pullRequestHead.bind EventHead.repoFullName, wChain.envRepository]
        wChain.gitRemoteGetUrl = .ok "fork/next.js" ∧
    specFallbackChain [wChain.pullRequestHead.bind EventHead.sha, wChain.envSha]
        wChain.gitRevParseHead = .ok "deadbeef" :=
  ⟨rfl,
    (fallback_chain_first_nonempty wChain ⟨"feature-y", "fork/next.js", "deadbeef"⟩ rfl).1,
    (fallback_chain_first_nonempty wChain ⟨"feature-y", "fork/next.js", "deadbeef"⟩ rfl).2.1,
    (fallback_chain_first_nonempty wChain ⟨"feature-y", "fork/next.js", "deadbeef"⟩ rfl).2.2⟩

/-- C9: on a completed non-canary run, `devTests` and `prodTests` are
exactly the in-order filters of the slash-normalized diff lines by the
existence check, the pattern match, and each bucket's rule — order follows
the diff output, duplicates are preserved, and no deduplication occurs. -/
theorem result_lists_are_ordered_filters (w : World) (ctx : InvocationContext)
    (h : (resolveContext w).1 = .ok ctx) (hc : isCanaryFor ctx = false)
    (hf : (fetchBaseline w).1 = .ok ()) :
    getChangedTests w =
      .ok ⟨((splitLines (diffOutput w)).map normalizeSlashes).filter
             (inDevBucket w.fileExists),
           ((splitLines (diffOutput w)).map normalizeSlashes).filter
             (inProdBucket w.fileExists),
           some ctx.commitSha⟩ :=
  getChangedTests_main w ctx h hc hf

/-- C9 witness: a diff listing the same existing `test/e2e` path twice
yields that path twice in both lists. -/
theorem result_lists_are_ordered_filters_witness :
    (resolveContext wDup).1 = .ok ⟨"feature-x", "someone/next.js", "sha1"⟩ ∧
    isCanaryFor ⟨"feature-x", "someone/next.js", "sha1"⟩ = false ∧
    (fetchBaseline wDup).1 = .ok () ∧
    getChangedTests wDup =
      .ok ⟨["test/e2e/a.test.ts", "test/e2e/a.test.ts"],
           ["test/e2e/a.test.ts", "test/e2e/a.test.ts"], some "sha1"⟩ :=
  ⟨rfl, by decide, rfl,
    (result_lists_are_ordered_filters wDup ⟨"feature-x", "someone/next.js", "sha1"⟩ rfl
        (by decide) rfl).trans rfl⟩

/-- C10: the prod and development bucket checks are plain string-prefix
tests with no required trailing separator: any existing, pattern-matching
path starting with `test/prod` is appended to `prodTests` (only), and any
such path starting with `test/development` is appended to `devTests`
(only). -/
theorem prefix_bucket_no_separator (fe : String → Bool) (raw : String) (rest : List String)
    (hfe : fe (normalizeSlashes raw) = true)
    (hm : matchesTestPattern (normalizeSlashes raw) = true) :
    (strStartsWith (normalizeSlashes raw) "test/prod" = true →
      (classifyFiles fe (raw :: rest)).2.1 =
        normalizeSlashes raw :: (classifyFiles fe rest).2.1 ∧
      (classifyFiles fe (raw :: rest)).1 = (classifyFiles fe rest).1) ∧
    (strStartsWith (normalizeSlashes raw) "test/development" = true →
      (classifyFiles fe (raw :: rest)).1 =
        normalizeSlashes raw :: (classifyFiles fe rest).1 ∧
      (classifyFiles fe (raw :: rest)).2.1 = (classifyFiles fe rest).2.1) := by
  refine ⟨fun hp => ?_, fun hd => ?_⟩
  · have he := prod_not_e2e _ hp
    constructor <;> simp [classifyFiles, hfe, hm, hp, he]
  · have he := dev_not_e2e _ hd
    have hp := dev_not_prod _ hd
    constructor <;> simp [classifyFiles, hfe, hm, hd, he, hp]

/-- C10 witness: `test/production/x.test.ts` (not under `test/prod/`) goes
to `prodTests`, and `test/developments/y.test.tsx` (not under
`test/development/`) goes to `devTests`. -/
theorem prefix_bucket_no_separator_witness :
    (matchesTestPattern "test/production/x.test.ts" = true ∧
      strStartsWith "test/production/x.test.ts" "test/prod" = true ∧
      (classifyFiles (fun _ => true) ["test/production/x.test.ts"]).2.1 =
        ["test/production/x.test.ts"] ∧
      (classifyFiles (fun _ => true) ["test/production/x.test.ts"]).1 = []) ∧
    (matchesTestPattern "test/developments/y.test.tsx" = true ∧
      strStartsWith "test/developments/y.test.tsx" "test/development" = true ∧
      (classifyFiles (fun _ => true) ["test/developments/y.test.tsx"]).1 =
        ["test/developments/y.test.tsx"] ∧
      (classifyFiles (fun _ => true) ["test/developments/y.test.tsx"]).2.1 = []) := by
  refine ⟨⟨by decide, by decide, ?_, ?_⟩, ⟨by decide, by decide, ?_, ?_⟩⟩
  · exact ((prefix_bucket_no_separator (fun _ => true) "test/production/x.test.ts" [] rfl
      (by decide)).1 (by decide)).1.trans (by decide)
  · exact ((prefix_bucket_no_separator (fun _ => true) "test/production/x.test.ts" [] rfl
      (by decide)).1 (by decide)).2.trans (by decide)
  · exact ((prefix_bucket_no_separator (fun _ => true) "test/developments/y.test.tsx" [] rfl
      (by decide)).2 (by decide)).1.trans (by decide)
  · exact ((prefix_bucket_no_separator (fun _ => true) "test/developments/y.test.tsx" [] rfl
      (by decide)).2 (by decide)).2.trans (by decide)

end GetChangedTests
